import Mathlib

/-!
Shallow embedding of the ai-service provider abstraction and streaming
pipeline, together with theorems settling the specification claims.

The definitions below are translated from the Python source:
 - `app/api/routes/chat.py`      (streaming translator, route pipeline)
 - `app/models/requests.py`      (ChatMessage / ChatRequest / get_messages)
 - `app/services/ai_service.py`  (provider registry resolution)
 - `app/services/providers/ollama_provider.py`
 - `app/services/providers/gemini_provider.py`

Python truthiness (`if self.messages:` treats `None` and `[]` alike,
`x or 20` treats `0` as absent) is modelled explicitly where the source
relies on it.  Stateful methods are modelled by explicit state passing:
the per-adapter model cache is an `Option (List String)` threaded in and
out, and the backend is a parameter describing its response.
-/

set_option maxRecDepth 4096

/-! ## Generic list/string helpers used by the embedded code -/

/-- The maximal leading run of decimal digits of a character list,
paired with the remainder (used to model the greedy `(\d+)` of the
regexes in `_estimate_model_size`). -/
def takeDigits : List Char → List Char × List Char
  | [] => ([], [])
  | c :: cs =>
    if c.isDigit then
      let (ds, rest) := takeDigits cs
      (c :: ds, rest)
    else
      ([], c :: cs)

/-- Decimal value of a digit list (Python `int(...)` on the regex group). -/
def digitsToNat (ds : List Char) : Nat :=
  ds.foldl (fun n c => n * 10 + (c.toNat - 48)) 0

/-- Match `(\d+)b` exactly at the start of the character list:
a non-empty maximal digit run immediately followed by `'b'`. -/
def matchNumB (cs : List Char) : Option Nat :=
  match takeDigits cs with
  | (d :: ds, 'b' :: _) => some (digitsToNat (d :: ds))
  | _ => none

/-- Leftmost match of the regex `sep(\d+)b` over a character list
(`re.search` semantics for the `:(\d+)b` / `-(\d+)b` patterns). -/
def findSizeAfter (sep : Char) : List Char → Option Nat
  | [] => none
  | c :: cs =>
    match (if c = sep then matchNumB cs else none) with
    | some n => some n
    | none => findSizeAfter sep cs

/-- Leftmost match of the bare regex `(\d+)b` over a character list. -/
def findBareSize : List Char → Option Nat
  | [] => none
  | c :: cs =>
    match matchNumB (c :: cs) with
    | some n => some n
    | none => findBareSize cs

/-- Substring test: `needle` occurs contiguously inside `hay`
(Python `needle in hay` on strings). -/
def containsSub (needle : List Char) : List Char → Bool
  | [] => needle.isEmpty
  | c :: cs => needle.isPrefixOf (c :: cs) || containsSub needle cs

/-- Python `a in b` on strings. -/
def strIn (a b : String) : Bool :=
  containsSub a.data b.data

/-- Python `str.lower()`, modelled on the character list (the
identifiers involved are ASCII, where this agrees with Python). -/
def pyLower (s : String) : String :=
  ⟨s.data.map Char.toLower⟩

/-- Python `sorted` on a list of strings (lexicographic, stable). -/
def sortStrings (l : List String) : List String :=
  l.mergeSort (fun a b => decide (a ≤ b))

/-! ## Streaming translator (`chat_stream.generate` in `chat.py`) -/

/-- Outgoing SSE event, the `type` discriminator of the JSON payloads
emitted by the `generate` closure of the `/chat/stream` route. -/
inductive StreamEvent where
  | metadata (model provider : String)
  | chunk (content : String)
  | done
  | error (message : String)
deriving DecidableEq, Repr

/-- Behaviour of one run of an adapter's chunk stream: the chunks it
yields in order, and `failure = some msg` when it raises (with message
`msg`) after yielding them, `none` when it completes normally. -/
structure AdapterStream where
  chunks : List String
  failure : Option String
deriving DecidableEq, Repr

/-- The `generate` generator of the `/chat/stream` route: yield one
metadata event, then one chunk event per adapter chunk, then `done`;
any exception raised by the stream is caught and turned into a single
terminal `error` event. -/
def chat_stream_generate (model provider : String) (s : AdapterStream) :
    List StreamEvent :=
  StreamEvent.metadata model provider ::
    (s.chunks.map StreamEvent.chunk ++
      match s.failure with
      | none => [StreamEvent.done]
      | some msg => [StreamEvent.error msg])

/-- Discriminator for metadata events. -/
def isMetadata : StreamEvent → Bool
  | .metadata _ _ => true
  | _ => false

/-- Discriminator for chunk events. -/
def isChunk : StreamEvent → Bool
  | .chunk _ => true
  | _ => false

/-- Discriminator for done events. -/
def isDone : StreamEvent → Bool
  | .done => true
  | _ => false

/-- Discriminator for error events. -/
def isError : StreamEvent → Bool
  | .error _ => true
  | _ => false

/-- Content carried by a chunk event. -/
def chunkContent : StreamEvent → Option String
  | .chunk c => some c
  | _ => none

/-! ## Request models (`app/models/requests.py`) -/

/-- `ChatMessage`: role plus content.  Pydantic enforces
`min_length=1` on `content` at construction; that constraint is
carried as the separate predicate `chatMessage_fields_valid`. -/
structure ChatMessage where
  role : String
  content : String
deriving DecidableEq, Repr

/-- Pydantic field constraint on `ChatMessage` (`min_length=1`). -/
def chatMessage_fields_valid (m : ChatMessage) : Prop :=
  1 ≤ m.content.length

/-- `ChatRequest`: raw fields of the inbound request body. -/
structure ChatRequest where
  prompt : Option String
  messages : Option (List ChatMessage)
  model : Option String
  provider : Option String
  max_context_messages : Option Nat
deriving DecidableEq, Repr

/-- Pydantic field constraints enforced when `ChatRequest(**data)` is
constructed: every message content is non-empty (`min_length=1`) and
`max_context_messages`, when supplied, lies in `[1, 100]`
(`ge=1, le=100`). -/
def chatRequest_fields_valid (r : ChatRequest) : Prop :=
  (∀ ms, r.messages = some ms → ∀ m ∈ ms, chatMessage_fields_valid m) ∧
  (∀ k, r.max_context_messages = some k → 1 ≤ k ∧ k ≤ 100)

/-- Python truthiness of an optional string (`None` and `""` falsy). -/
def truthyStr : Option String → Bool
  | some s => !(s == "")
  | none => false

/-- Python truthiness of an optional list (`None` and `[]` falsy). -/
def truthyList {β : Type} : Option (List β) → Bool
  | some l => !l.isEmpty
  | none => false

/-- `ChatRequest.get_messages`: converts the request to the message
list handed to providers.  `if self.messages:` is Python truthiness,
so an empty list falls through to the prompt branch; `elif
self.prompt:` likewise rejects the empty string; `max_context_messages
or 20` maps both `None` and `0` to `20`; the slice
`messages[-max:]` keeps the last `max` entries. -/
def get_messages (r : ChatRequest) : Except String (List ChatMessage) :=
  match r.messages with
  | some (m :: ms) =>
    let msgs := m :: ms
    let max_messages : Nat :=
      match r.max_context_messages with
      | some k => if k = 0 then 20 else k
      | none => 20
    let limited_messages :=
      if msgs.length > max_messages then
        msgs.drop (msgs.length - max_messages)
      else msgs
    .ok (limited_messages.map (fun msg => { role := msg.role, content := msg.content }))
  | _ =>
    match r.prompt with
    | some p =>
      if p = "" then .error "Either 'prompt' or 'messages' must be provided"
      else .ok [{ role := "user", content := p }]
    | none => .error "Either 'prompt' or 'messages' must be provided"

/-- `ChatRequest.model_validate`: the custom classmethod that rejects a
request only when both `prompt` and `messages` are falsy. -/
def chatRequest_model_validate (r : ChatRequest) : Except String ChatRequest :=
  if !truthyStr r.prompt && !truthyList r.messages then
    .error "Either 'prompt' or 'messages' must be provided"
  else
    .ok r

/-! ## Ollama provider (`app/services/providers/ollama_provider.py`) -/

namespace OllamaProvider

/-- `_estimate_model_size`: estimate the parameter count (billions)
from a model identifier.  The lowered name is searched for `:(\d+)b`,
then `-(\d+)b`, then a bare `(\d+)b`; failing those, fixed keyword
buckets are tried; otherwise the weight is `50`. -/
def estimate_model_size (model_name : String) : Nat :=
  let model_lower := pyLower model_name
  let cs := model_lower.data
  match findSizeAfter ':' cs with
  | some n => n
  | none =>
    match findSizeAfter '-' cs with
    | some n => n
    | none =>
      match findBareSize cs with
      | some n => n
      | none =>
        if ["1b", "1.5b", "2b", "3b"].any (fun x => strIn x model_lower) then 1
        else if ["7b", "8b"].any (fun x => strIn x model_lower) then 7
        else if ["13b", "14b"].any (fun x => strIn x model_lower) then 14
        else if ["32b", "34b"].any (fun x => strIn x model_lower) then 32
        else if ["70b", "72b"].any (fun x => strIn x model_lower) then 70
        else 50

/-- Result of the backend `/api/tags` listing call: `failure` covers a
non-200 status, a JSON decode error and every request exception (all
of which make `get_available_models` return `[]` without caching);
`success` carries one entry per raw model record, `some name` when the
record has a `name`/`model` field and `none` when it is missing (such
records are skipped with a warning). -/
inductive TagsResult where
  | failure
  | success (entries : List (Option String))
deriving DecidableEq, Repr

/-- Observable outcome of one `get_available_models` call: the value
returned, the cache state it leaves behind, and whether the backend
listing endpoint was queried. -/
structure ModelsCall where
  result : List String
  cache : Option (List String)
  queried : Bool
deriving DecidableEq, Repr

/-- `OllamaProvider.get_available_models`, with the `_cached_models`
field threaded explicitly and the backend response as a parameter.
`force_refresh` clears the cache first; a populated cache is returned
sorted without touching the backend; otherwise the backend is queried,
and on success the name-bearing entries are sorted and cached. -/
def get_available_models (cache : Option (List String)) (backend : TagsResult)
    (force_refresh : Bool) : ModelsCall :=
  let cache := if force_refresh then none else cache
  match cache with
  | some cached => { result := sortStrings cached, cache := some cached, queried := false }
  | none =>
    match backend with
    | .failure => { result := [], cache := none, queried := true }
    | .success entries =>
      let models := sortStrings (entries.filterMap id)
      { result := models, cache := some models, queried := true }

/-- `OllamaProvider.get_default_model`, as a function of the list
returned by `get_available_models()`: sort by estimated size (Python
`sorted` is stable) and take the first entry; fall back to the literal
`"llama3.2:1b"` when the list is empty. -/
def get_default_model (available_models : List String) : String :=
  if available_models.isEmpty then "llama3.2:1b"
  else
    (available_models.mergeSort
      (fun a b => decide (estimate_model_size a ≤ estimate_model_size b))).headD
      "llama3.2:1b"

end OllamaProvider

/-! ## Gemini provider (`app/services/providers/gemini_provider.py`) -/

namespace GeminiProvider

/-- The hardcoded price-ordered reference list `GEMINI_MODELS_BY_PRICE`
(cheapest first). -/
def GEMINI_MODELS_BY_PRICE : List String :=
  [ "gemini-2.0-flash-lite",
    "gemini-2.0-flash-exp",
    "gemini-2.0-flash",
    "gemini-1.5-flash",
    "gemini-1.5-flash-8b",
    "gemini-1.5-pro",
    "gemini-1.5-pro-latest",
    "gemini-pro",
    "gemini-pro-vision" ]

/-- The `price_order` lookup built from `enumerate(GEMINI_MODELS_BY_PRICE)`:
index of the first exact occurrence. -/
def priceIndex (m : String) : Option Nat :=
  GEMINI_MODELS_BY_PRICE.findIdx? (fun x => x == m)

/-- The loop inside `get_price_order`: first reference entry related to
`model_name` by substring containment in either direction. -/
def findSubMatch (model_name : String) : List String → Option String
  | [] => none
  | ordered_model :: rest =>
    if strIn ordered_model model_name || strIn model_name ordered_model then
      some ordered_model
    else
      findSubMatch model_name rest

/-- `get_price_order` (the sort key inside `_sort_models_by_price`):
exact match gets its reference index; otherwise the first reference
entry matching by substring in either direction gets its index;
otherwise `9999`. -/
def get_price_order (model_name : String) : Nat :=
  match priceIndex model_name with
  | some i => i
  | none =>
    match findSubMatch model_name GEMINI_MODELS_BY_PRICE with
    | some ordered_model => (priceIndex ordered_model).getD 9999
    | none => 9999

/-- `_sort_models_by_price`: stable sort of the live entries by
`get_price_order`. -/
def sort_models_by_price (models : List String) : List String :=
  models.mergeSort (fun a b => decide (get_price_order a ≤ get_price_order b))

/-- The static default model set in `__init__`
(`self.default_model = "gemini-2.0-flash"`). -/
def default_model : String := "gemini-2.0-flash"

/-- `GeminiProvider.get_available_models`, cache threaded explicitly;
`fetched` is what `_fetch_models_from_api` returns (it returns `[]` on
any internal error).  A present cache is returned (as a copy) without
querying; otherwise non-empty fetched entries are price-sorted and
cached, and an empty fetch falls back to the hardcoded list. -/
def get_available_models (cache : Option (List String)) (fetched : List String)
    (force_refresh : Bool) : OllamaProvider.ModelsCall :=
  let cache := if force_refresh then none else cache
  match cache with
  | some cached => { result := cached, cache := some cached, queried := false }
  | none =>
    if !fetched.isEmpty then
      let models := sort_models_by_price fetched
      { result := models, cache := some models, queried := true }
    else
      { result := GEMINI_MODELS_BY_PRICE, cache := some GEMINI_MODELS_BY_PRICE,
        queried := true }

/-- One entry of the `contents` array sent to the Gemini SDK. -/
structure GeminiContent where
  role : String
  parts : List String
deriving DecidableEq, Repr

/-- The message-conversion loop shared by generation and streaming:
`assistant` is renamed to `model`, the content becomes a single part. -/
def toGeminiContents (messages : List ChatMessage) : List GeminiContent :=
  messages.map fun msg =>
    let role := msg.role
    let content := msg.content
    let role := if role = "assistant" then "model" else role
    { role := role, parts := [content] }

/-- Outcome of `generate_response_with_messages` /
`stream_response_with_messages` up to the point where the backend call
would be issued: either the fail-fast model-validation error, or the
backend call with the arguments the SDK would receive. -/
inductive GeminiCallResult where
  | modelUnavailable (model : String) (available : List String)
  | issued (model : String) (contents : List GeminiContent)
deriving DecidableEq, Repr

/-- `GeminiProvider.generate_response_with_messages`: resolve the
effective model via Python truthiness — `model or
self.get_default_model()` selects the static default when `model` is
`None` **or the empty string** — validate it against
`get_available_models()`, and only then build the contents and issue
the backend call. -/
def generate_response_with_messages (cache : Option (List String))
    (fetched : List String) (messages : List ChatMessage)
    (model : Option String) : GeminiCallResult :=
  let selected_model :=
    match model with
    | some m => if m = "" then default_model else m
    | none => default_model
  let available_models := (get_available_models cache fetched false).result
  if !(available_models.contains selected_model) then
    .modelUnavailable selected_model available_models
  else
    .issued selected_model (toGeminiContents messages)

/-- `GeminiProvider.stream_response_with_messages`: same effective-model
truthiness (`None` and `""` both fall back to the default) and the same
validation before the streaming backend call is issued. -/
def stream_response_with_messages (cache : Option (List String))
    (fetched : List String) (messages : List ChatMessage)
    (model : Option String) : GeminiCallResult :=
  let selected_model :=
    match model with
    | some m => if m = "" then default_model else m
    | none => default_model
  let available_models := (get_available_models cache fetched false).result
  if !(available_models.contains selected_model) then
    .modelUnavailable selected_model available_models
  else
    .issued selected_model (toGeminiContents messages)

end GeminiProvider

/-! ## Provider registry (`app/services/ai_service.py`) -/

/-- `AIService.get_provider`: fall back to the configured default name,
lower-case, and look the result up among the registered adapters;
a missing entry is the `ProviderNotFound` error. -/
def get_provider {α : Type} (providers : List (String × α))
    (default_provider : String) (provider_type : Option String) :
    Except String α :=
  let provider_type :=
    match provider_type with
    | none => default_provider
    | some s => s
  let provider_type := pyLower provider_type
  match providers.lookup provider_type with
  | some p => .ok p
  | none => .error ("Provider '" ++ provider_type ++ "' is not available")

/-! ## The synchronous route pipeline (`chat` in `chat.py`) -/

/-- The `/chat` route up to the adapter invocation: resolve the
provider, then normalize the messages; `.ok` carries exactly the
arguments with which `provider.generate_response` is invoked. -/
def chat_route {α : Type} (providers : List (String × α))
    (default_provider : String) (r : ChatRequest) :
    Except String (α × List ChatMessage × Option String) :=
  match get_provider providers default_provider r.provider with
  | .error e => .error e
  | .ok provider =>
    match get_messages r with
    | .error e => .error e
    | .ok messages => .ok (provider, messages, r.model)

/-! ## Helper lemmas about stream events -/

theorem countP_map_chunk_eq_zero (p : StreamEvent → Bool)
    (h : ∀ c, p (StreamEvent.chunk c) = false) (l : List String) :
    (l.map StreamEvent.chunk).countP p = 0 := by
  rw [List.countP_map]
  exact List.countP_eq_zero.mpr (fun a _ => by simp [Function.comp, h])

theorem filterMap_chunkContent (l : List String) :
    List.filterMap (chunkContent ∘ StreamEvent.chunk) l = l := by
  induction l with
  | nil => rfl
  | cons c t ih => simp [List.filterMap_cons, chunkContent, Function.comp, ih]

theorem mem_map_chunk_not_terminal {e : StreamEvent} {l : List String}
    (he : e ∈ l.map StreamEvent.chunk) : isDone e = false ∧ isError e = false := by
  rcases List.mem_map.mp he with ⟨c, -, rfl⟩
  exact ⟨rfl, rfl⟩

/-- Claim C1: the streaming endpoint's event sequence starts with exactly
one `Metadata` event carrying model and provider, relays the adapter's
chunks in arrival order one event each, and ends with exactly one
terminal event — `Done` when the adapter stream completes, a single
`Error` with the failure message when it raises — with no terminal
event anywhere else and never a `Done` alongside an `Error`. -/
theorem C1_stream_event_sequencing (model provider : String) (s : AdapterStream) :
    (chat_stream_generate model provider s).head? =
        some (StreamEvent.metadata model provider) ∧
    (chat_stream_generate model provider s).countP isMetadata = 1 ∧
    (chat_stream_generate model provider s).filterMap chunkContent = s.chunks ∧
    (chat_stream_generate model provider s).countP isDone +
      (chat_stream_generate model provider s).countP isError = 1 ∧
    (∀ e ∈ (chat_stream_generate model provider s).dropLast,
        isDone e = false ∧ isError e = false) ∧
    (s.failure = none →
      (chat_stream_generate model provider s).getLast? = some StreamEvent.done) ∧
    (∀ msg, s.failure = some msg →
      (chat_stream_generate model provider s).getLast? =
          some (StreamEvent.error msg) ∧
      (chat_stream_generate model provider s).countP isDone = 0) := by
  obtain ⟨chunks, failure⟩ := s
  cases failure with
  | none =>
    have hform : chat_stream_generate model provider ⟨chunks, none⟩ =
        (StreamEvent.metadata model provider :: chunks.map StreamEvent.chunk) ++
          [StreamEvent.done] := by
      simp [chat_stream_generate]
    refine ⟨by simp [chat_stream_generate], ?_, ?_, ?_, ?_, ?_, ?_⟩
    · simp [chat_stream_generate, List.countP_cons, isMetadata,
        countP_map_chunk_eq_zero isMetadata (fun _ => rfl)]
    · simp [chat_stream_generate, List.filterMap_cons, chunkContent,
        filterMap_chunkContent]
    · simp [chat_stream_generate, List.countP_cons, isDone, isError, isMetadata,
        countP_map_chunk_eq_zero isDone (fun _ => rfl),
        countP_map_chunk_eq_zero isError (fun _ => rfl)]
    · intro e he
      rw [hform, List.dropLast_concat, List.mem_cons] at he
      rcases he with rfl | he
      · exact ⟨rfl, rfl⟩
      · exact mem_map_chunk_not_terminal he
    · intro _
      rw [hform, List.getLast?_concat]
    · intro msg h
      exact absurd h (by simp)
  | some msg =>
    have hform : chat_stream_generate model provider ⟨chunks, some msg⟩ =
        (StreamEvent.metadata model provider :: chunks.map StreamEvent.chunk) ++
          [StreamEvent.error msg] := by
      simp [chat_stream_generate]
    refine ⟨by simp [chat_stream_generate], ?_, ?_, ?_, ?_, ?_, ?_⟩
    · simp [chat_stream_generate, List.countP_cons, isMetadata,
        countP_map_chunk_eq_zero isMetadata (fun _ => rfl)]
    · simp [chat_stream_generate, List.filterMap_cons, chunkContent,
        filterMap_chunkContent]
    · simp [chat_stream_generate, List.countP_cons, isDone, isError, isMetadata,
        countP_map_chunk_eq_zero isDone (fun _ => rfl),
        countP_map_chunk_eq_zero isError (fun _ => rfl)]
    · intro e he
      rw [hform, List.dropLast_concat, List.mem_cons] at he
      rcases he with rfl | he
      · exact ⟨rfl, rfl⟩
      · exact mem_map_chunk_not_terminal he
    · intro h
      exact absurd h (by simp)
    · intro msg' h
      injection h with h
      subst h
      refine ⟨by rw [hform, List.getLast?_concat], ?_⟩
      simp [chat_stream_generate, List.countP_cons, isDone,
        countP_map_chunk_eq_zero isDone (fun _ => rfl)]

/-- Concrete instantiation of `C1_stream_event_sequencing`: the
successful stream of chunks `["Hi", " there"]` and a stream failing
after one chunk, with each implication discharged. -/
theorem C1_stream_event_sequencing_witness :
    (chat_stream_generate "llama3.2:1b" "ollama" ⟨["Hi", " there"], none⟩).getLast? =
        some StreamEvent.done ∧
    (chat_stream_generate "llama3.2:1b" "ollama" ⟨["Hi"], some "boom"⟩).getLast? =
        some (StreamEvent.error "boom") ∧
    (chat_stream_generate "llama3.2:1b" "ollama" ⟨["Hi"], some "boom"⟩).countP isDone
        = 0 := by
  refine ⟨(C1_stream_event_sequencing "llama3.2:1b" "ollama"
      ⟨["Hi", " there"], none⟩).2.2.2.2.2.1 rfl, ?_⟩
  have h := (C1_stream_event_sequencing "llama3.2:1b" "ollama"
      ⟨["Hi"], some "boom"⟩).2.2.2.2.2.2 "boom" rfl
  exact ⟨h.1, h.2⟩

/-! ## Helper lemmas about request normalization -/

theorem map_mk_eta (l : List ChatMessage) :
    l.map (fun msg => ChatMessage.mk msg.role msg.content) = l := by
  induction l with
  | nil => rfl
  | cons m t ih => simp [ih]

theorem limit_eq_drop (msgs : List ChatMessage) (mx : Nat) :
    (if msgs.length > mx then msgs.drop (msgs.length - mx) else msgs) =
      msgs.drop (msgs.length - mx) := by
  split
  · rfl
  · next h => rw [Nat.sub_eq_zero_of_le (Nat.le_of_not_lt h), List.drop_zero]

theorem content_ne_empty_of_valid {m : ChatMessage}
    (h : chatMessage_fields_valid m) : m.content ≠ "" := by
  intro hc
  rw [chatMessage_fields_valid, hc] at h
  simp at h

theorem get_messages_cons (p mdl prov : Option String) (mcm : Option Nat)
    (m : ChatMessage) (ms' : List ChatMessage) :
    get_messages ⟨p, some (m :: ms'), mdl, prov, mcm⟩ =
      .ok ((m :: ms').drop ((m :: ms').length -
        (match mcm with
          | some k => if k = 0 then 20 else k
          | none => 20))) := by
  simp only [get_messages]
  rw [limit_eq_drop, map_mk_eta]

theorem window_pos (mcm : Option Nat) :
    1 ≤ (match mcm with
      | some k => if k = 0 then 20 else k
      | none => 20) := by
  cases mcm with
  | none => exact (by omega : (1 : Nat) ≤ 20)
  | some k =>
    by_cases h : k = 0
    · simp [h]
    · simp [h]
      omega

/-- The 25-message conversation of the spec's trimming example. -/
def exampleMessages25 : List ChatMessage :=
  (List.range 25).map (fun i => ⟨"user", toString (i + 1)⟩)

/-- Claim C2 (amended): for every request whose `messages` field is
present **and non-empty**, normalization returns exactly the last
`window` entries in original order, where `window` is
`max_context_messages` when supplied (validated to `[1,100]`) and `20`
otherwise; lists no longer than the window pass through unchanged, and
trimming never errors.  25 messages with the default window retain
entries 6..25. -/
theorem C2_context_window_trim :
    (∀ (r : ChatRequest) (ms : List ChatMessage),
      chatRequest_fields_valid r → r.messages = some ms → ms ≠ [] →
      get_messages r =
        .ok (ms.drop (ms.length - r.max_context_messages.getD 20))) ∧
    (∀ (r : ChatRequest) (ms : List ChatMessage),
      chatRequest_fields_valid r → r.messages = some ms → ms ≠ [] →
      ms.length ≤ r.max_context_messages.getD 20 →
      get_messages r = .ok ms) ∧
    (get_messages ⟨none, some exampleMessages25, none, none, none⟩ =
      .ok (exampleMessages25.drop 5)) := by
  have main : ∀ (r : ChatRequest) (ms : List ChatMessage),
      chatRequest_fields_valid r → r.messages = some ms → ms ≠ [] →
      get_messages r =
        .ok (ms.drop (ms.length - r.max_context_messages.getD 20)) := by
    intro r ms hv hm hne
    obtain ⟨p, omsgs, mdl, prov, mcm⟩ := r
    simp only at hm
    subst hm
    cases ms with
    | nil => exact absurd rfl hne
    | cons m ms' =>
      cases mcm with
      | none =>
        simp only [get_messages, Option.getD_none]
        rw [limit_eq_drop, map_mk_eta]
      | some k =>
        have h1 := (hv.2 k rfl).1
        have hk0 : ¬k = 0 := by omega
        simp only [get_messages, Option.getD_some]
        rw [if_neg hk0, limit_eq_drop, map_mk_eta]
  refine ⟨main, ?_, ?_⟩
  · intro r ms hv hm hne hle
    rw [main r ms hv hm hne]
    have h0 : ms.length - r.max_context_messages.getD 20 = 0 := by omega
    rw [h0, List.drop_zero]
  · rfl

/-- Counterexample to claim C2 as stated: in the request
`{prompt: "Hi", messages: []}` the `messages` field is present, yet
normalization does not return the last-window entries of `messages`
(the empty list) — Python truthiness sends the empty list down the
prompt branch instead. -/
theorem C2_counterexample_empty_messages_present :
    get_messages ⟨some "Hi", some [], none, none, none⟩ =
      .ok [{ role := "user", content := "Hi" }] ∧
    (Except.ok [ChatMessage.mk "user" "Hi"] :
        Except String (List ChatMessage)) ≠
      .ok (([] : List ChatMessage).drop
        (([] : List ChatMessage).length - 20)) := by
  constructor
  · rfl
  · intro h
    simp at h

/-- Concrete instantiation of `C2_context_window_trim`: a valid
three-message request with window 2 keeps the last two messages. -/
theorem C2_context_window_trim_witness :
    get_messages ⟨none,
        some [⟨"user", "a"⟩, ⟨"assistant", "b"⟩, ⟨"user", "c"⟩],
        none, none, some 2⟩ =
      .ok [⟨"assistant", "b"⟩, ⟨"user", "c"⟩] := by
  have h := C2_context_window_trim.1
    ⟨none, some [⟨"user", "a"⟩, ⟨"assistant", "b"⟩, ⟨"user", "c"⟩],
      none, none, some 2⟩
    [⟨"user", "a"⟩, ⟨"assistant", "b"⟩, ⟨"user", "c"⟩]
    (by constructor
        · intro ms hms m hm
          simp at hms
          subst hms
          simp at hm
          rcases hm with rfl | rfl | rfl <;> exact Nat.le.refl
        · intro k hk
          simp at hk
          omega)
    rfl (by simp)
  simpa using h

/-- Claim C3 (amended): a request with both `prompt` and `messages`
absent (falsy) is rejected with `InvalidRequest` — by `get_messages`,
by the custom `model_validate` classmethod, and before the route ever
invokes an adapter's generation call; but a request supplying **both**
`prompt` and a non-empty `messages` is not a validation failure:
`messages` silently takes precedence and `prompt` is ignored. -/
theorem C3_exactly_one_of_prompt_messages :
    (∀ r : ChatRequest,
      truthyStr r.prompt = false → truthyList r.messages = false →
      (∃ e, get_messages r = .error e) ∧
      (∃ e, chatRequest_model_validate r = .error e) ∧
      (∀ (α : Type) (providers : List (String × α)) (d : String)
        (v : α × List ChatMessage × Option String),
        chat_route providers d r ≠ .ok v)) ∧
    (∀ (r : ChatRequest) (m : ChatMessage) (ms : List ChatMessage),
      r.messages = some (m :: ms) →
      get_messages r = get_messages ⟨none, r.messages, r.model, r.provider,
        r.max_context_messages⟩) := by
  constructor
  · intro r hp hm
    obtain ⟨p, omsgs, mdl, prov, mcm⟩ := r
    simp only at hp hm
    have herr : get_messages ⟨p, omsgs, mdl, prov, mcm⟩ =
        .error "Either 'prompt' or 'messages' must be provided" := by
      cases omsgs with
      | none =>
        cases p with
        | none => rfl
        | some s =>
          have hs : s = "" := by simpa [truthyStr] using hp
          subst hs
          rfl
      | some l =>
        cases l with
        | nil =>
          cases p with
          | none => rfl
          | some s =>
            have hs : s = "" := by simpa [truthyStr] using hp
            subst hs
            rfl
        | cons a t => simp [truthyList] at hm
    refine ⟨⟨_, herr⟩, ?_, ?_⟩
    · refine ⟨"Either 'prompt' or 'messages' must be provided", ?_⟩
      simp only [chatRequest_model_validate]
      rw [if_pos (by simp [hp, hm])]
    · intro α providers d v
      simp only [chat_route]
      cases get_provider providers d prov with
      | error e => simp
      | ok pr =>
        rw [herr]
        simp
  · intro r m ms hm
    obtain ⟨p, omsgs, mdl, prov, mcm⟩ := r
    simp only at hm
    subst hm
    rfl

/-- Counterexample to claim C3 as stated: the request
`{prompt: "Hi", messages: [user "Hello"]}` supplies both fields yet is
not a validation failure — `model_validate` accepts it, `get_messages`
returns the messages (ignoring the prompt), and the route proceeds to
invoke the adapter. -/
theorem C3_counterexample_both_supplied :
    chatRequest_model_validate ⟨some "Hi", some [⟨"user", "Hello"⟩], none, none, none⟩ =
      .ok ⟨some "Hi", some [⟨"user", "Hello"⟩], none, none, none⟩ ∧
    get_messages ⟨some "Hi", some [⟨"user", "Hello"⟩], none, none, none⟩ =
      .ok [⟨"user", "Hello"⟩] ∧
    chat_route [("ollama", 0)] "ollama"
        ⟨some "Hi", some [⟨"user", "Hello"⟩], none, none, none⟩ =
      .ok (0, [⟨"user", "Hello"⟩], none) := by
  refine ⟨rfl, rfl, ?_⟩
  rfl

/-- Concrete instantiation of `C3_exactly_one_of_prompt_messages`: the
empty request is rejected everywhere, and a request with both fields
ignores its prompt. -/
theorem C3_exactly_one_of_prompt_messages_witness :
    (∃ e, get_messages ⟨none, none, none, none, none⟩ = .error e) ∧
    get_messages ⟨some "Hi", some [⟨"user", "Hello"⟩], none, none, none⟩ =
      get_messages ⟨none, some [⟨"user", "Hello"⟩], none, none, none⟩ := by
  constructor
  · exact (C3_exactly_one_of_prompt_messages.1 ⟨none, none, none, none, none⟩
      rfl rfl).1
  · exact C3_exactly_one_of_prompt_messages.2
      ⟨some "Hi", some [⟨"user", "Hello"⟩], none, none, none⟩
      ⟨"user", "Hello"⟩ [] rfl

/-- Claim C9: for every field-valid request, normalization either fails
with `InvalidRequest` or returns a non-empty message list all of whose
contents are non-empty; in particular an empty `messages` list with no
prompt, and an empty-string prompt, are rejected. -/
theorem C9_nonempty_conversation_invariant :
    (∀ r : ChatRequest,
      chatRequest_fields_valid r →
      (∃ e, get_messages r = .error e) ∨
      (∃ l, get_messages r = .ok l ∧ l ≠ [] ∧ ∀ m ∈ l, m.content ≠ "")) ∧
    (∀ r : ChatRequest, r.messages = some [] → r.prompt = none →
      ∃ e, get_messages r = .error e) ∧
    (∀ r : ChatRequest, r.prompt = some "" → r.messages = none →
      ∃ e, get_messages r = .error e) := by
  refine ⟨?_, ?_, ?_⟩
  · intro r hv
    obtain ⟨p, omsgs, mdl, prov, mcm⟩ := r
    match homsgs : omsgs with
    | some (m :: ms') =>
      right
      have hvm : ∀ x ∈ m :: ms', chatMessage_fields_valid x := by
        intro x hx
        exact hv.1 (m :: ms') rfl x hx
      have hmx := window_pos mcm
      refine ⟨_, get_messages_cons p mdl prov mcm m ms', ?_, ?_⟩
      · intro hcontra
        rw [List.drop_eq_nil_iff] at hcontra
        simp only [List.length_cons] at hcontra
        omega
      · intro x hx
        exact content_ne_empty_of_valid
          (hvm x (List.drop_subset _ _ hx))
    | some [] =>
      match p with
      | none => exact Or.inl ⟨_, rfl⟩
      | some q =>
        by_cases hq : q = ""
        · subst hq
          exact Or.inl ⟨_, rfl⟩
        · right
          refine ⟨[⟨"user", q⟩], ?_, by simp, ?_⟩
          · simp [get_messages, hq]
          · intro x hx
            simp at hx
            subst hx
            simpa using hq
    | none =>
      match p with
      | none => exact Or.inl ⟨_, rfl⟩
      | some q =>
        by_cases hq : q = ""
        · subst hq
          exact Or.inl ⟨_, rfl⟩
        · right
          refine ⟨[⟨"user", q⟩], ?_, by simp, ?_⟩
          · simp [get_messages, hq]
          · intro x hx
            simp at hx
            subst hx
            simpa using hq
  · intro r hm hp
    obtain ⟨p, omsgs, mdl, prov, mcm⟩ := r
    simp only at hm hp
    subst hm
    subst hp
    exact ⟨_, rfl⟩
  · intro r hp hm
    obtain ⟨p, omsgs, mdl, prov, mcm⟩ := r
    simp only at hm hp
    subst hm
    subst hp
    exact ⟨_, rfl⟩

/-- Concrete instantiation of `C9_nonempty_conversation_invariant` at a
valid single-prompt request and at the two rejected edge requests. -/
theorem C9_nonempty_conversation_invariant_witness :
    ((∃ e, get_messages ⟨some "Hello", none, none, none, none⟩ = .error e) ∨
      (∃ l, get_messages ⟨some "Hello", none, none, none, none⟩ = .ok l ∧
        l ≠ [] ∧ ∀ m ∈ l, m.content ≠ "")) ∧
    (∃ e, get_messages ⟨none, some [], none, none, none⟩ = .error e) ∧
    (∃ e, get_messages ⟨some "", none, none, none, none⟩ = .error e) := by
  refine ⟨?_, ?_, ?_⟩
  · exact C9_nonempty_conversation_invariant.1
      ⟨some "Hello", none, none, none, none⟩
      ⟨by intro ms h; simp at h, by intro k h; simp at h⟩
  · exact C9_nonempty_conversation_invariant.2.1
      ⟨none, some [], none, none, none⟩ rfl rfl
  · exact C9_nonempty_conversation_invariant.2.2
      ⟨some "", none, none, none, none⟩ rfl rfl

/-! ## First-minimum characterization of stable sort-by-key -/

/-- The first element of minimal weight of `a :: l` (lowest weight,
ties broken by original list order). -/
def firstMinBy {α : Type} (w : α → Nat) (a : α) (l : List α) : α :=
  match l with
  | [] => a
  | b :: t =>
    let m := firstMinBy w b t
    if w m < w a then m else a

theorem firstMinBy_mem {α : Type} (w : α → Nat) (a : α) (l : List α) :
    firstMinBy w a l ∈ a :: l := by
  induction l generalizing a with
  | nil => simp [firstMinBy]
  | cons b t ih =>
    simp only [firstMinBy]
    split
    · exact List.mem_cons_of_mem a (ih b)
    · exact List.mem_cons_self a _

theorem firstMinBy_le {α : Type} (w : α → Nat) (a : α) (l : List α) :
    ∀ x ∈ a :: l, w (firstMinBy w a l) ≤ w x := by
  induction l generalizing a with
  | nil =>
    intro x hx
    simp at hx
    subst hx
    exact Nat.le_refl _
  | cons b t ih =>
    intro x hx
    simp only [firstMinBy]
    rcases List.mem_cons.mp hx with rfl | hx'
    · split
      · next h => exact Nat.le_of_lt h
      · exact Nat.le_refl _
    · have hbt := ih b x hx'
      split
      · exact hbt
      · next h => exact Nat.le_trans (Nat.le_of_not_lt h) hbt

theorem firstMinBy_first {α : Type} (w : α → Nat) (a : α) (l : List α) :
    ∃ l₁ l₂, a :: l = l₁ ++ firstMinBy w a l :: l₂ ∧
      ∀ y ∈ l₁, w (firstMinBy w a l) < w y := by
  induction l generalizing a with
  | nil => exact ⟨[], [], rfl, by simp⟩
  | cons b t ih =>
    obtain ⟨l₁, l₂, heq, hlt⟩ := ih b
    simp only [firstMinBy]
    split
    · next h =>
      refine ⟨a :: l₁, l₂, by rw [List.cons_append, heq], ?_⟩
      intro y hy
      rcases List.mem_cons.mp hy with rfl | hy'
      · exact h
      · exact hlt y hy'
    · exact ⟨[], b :: t, rfl, by simp⟩

theorem head?_mergeSort_by_weight {α : Type} (w : α → Nat) (a : α) (l : List α) :
    ((a :: l).mergeSort (fun x y => decide (w x ≤ w y))).head? =
      some (firstMinBy w a l) := by
  have htrans : ∀ x y z : α, decide (w x ≤ w y) → decide (w y ≤ w z) →
      decide (w x ≤ w z) := by
    intro x y z h1 h2
    simp only [decide_eq_true_eq] at *
    omega
  have htotal : ∀ x y : α, decide (w x ≤ w y) || decide (w y ≤ w x) := by
    intro x y
    rcases Nat.le_total (w x) (w y) with h | h <;> simp [h]
  induction l generalizing a with
  | nil => simp [List.mergeSort, firstMinBy]
  | cons b t ih =>
    obtain ⟨l₁, l₂, h1, h2, h3⟩ :=
      List.mergeSort_cons htrans htotal a (b :: t)
    cases l₁ with
    | nil =>
      simp only [List.nil_append] at h1 h2
      have hm := ih b
      rw [h2] at hm
      rw [h1]
      simp only [List.head?_cons, Option.some.injEq]
      simp only [firstMinBy]
      rw [if_neg ?hna]
      case hna =>
        have hsorted := List.sorted_mergeSort htrans htotal (a :: b :: t)
        rw [h1] at hsorted
        cases l₂ with
        | nil => simp at hm
        | cons c l₂' =>
          simp only [List.head?_cons, Option.some.injEq] at hm
          subst hm
          have hac : decide (w a ≤ w (firstMinBy w b t)) :=
            List.rel_of_pairwise_cons hsorted (List.mem_cons_self _ _)
          simp only [decide_eq_true_eq] at hac
          omega
    | cons c t₁ =>
      have hm := ih b
      rw [h2] at hm
      simp only [List.cons_append, List.head?_cons, Option.some.injEq] at hm
      subst hm
      rw [h1]
      simp only [List.cons_append, List.head?_cons, Option.some.injEq]
      have hca : w (firstMinBy w b t) < w a := by
        have hc := h3 _ (List.mem_cons_self _ _)
        simp only [Bool.not_eq_true', decide_eq_false_iff_not] at hc
        omega
      simp only [firstMinBy]
      rw [if_pos hca]

theorem get_default_model_cons (a : String) (l : List String) :
    OllamaProvider.get_default_model (a :: l) =
      firstMinBy OllamaProvider.estimate_model_size a l := by
  unfold OllamaProvider.get_default_model
  rw [if_neg (by simp)]
  rw [List.headD_eq_head?_getD,
    head?_mergeSort_by_weight OllamaProvider.estimate_model_size a l]
  rfl

/-- Claim C4: the Ollama size estimator assigns weights 1, 14 and 70 to
`"llama3.2:1b"`, `"qwen2.5:14b"` and `"llama3.1:70b"`; on a non-empty
directory `get_default_model` returns the first entry of minimal
estimated size (lowest weight, ties broken by original list order) —
among exactly those three identifiers it picks `"llama3.2:1b"` — and
on an empty directory it returns the literal `"llama3.2:1b"`. -/
theorem C4_ollama_size_ranking_and_default :
    OllamaProvider.estimate_model_size "llama3.2:1b" = 1 ∧
    OllamaProvider.estimate_model_size "qwen2.5:14b" = 14 ∧
    OllamaProvider.estimate_model_size "llama3.1:70b" = 70 ∧
    OllamaProvider.get_default_model
        ["llama3.2:1b", "qwen2.5:14b", "llama3.1:70b"] = "llama3.2:1b" ∧
    OllamaProvider.get_default_model [] = "llama3.2:1b" ∧
    (∀ (a : String) (l : List String),
      OllamaProvider.get_default_model (a :: l) ∈ a :: l ∧
      (∀ x ∈ a :: l,
        OllamaProvider.estimate_model_size
            (OllamaProvider.get_default_model (a :: l)) ≤
          OllamaProvider.estimate_model_size x) ∧
      (∃ l₁ l₂, a :: l = l₁ ++ OllamaProvider.get_default_model (a :: l) :: l₂ ∧
        ∀ y ∈ l₁,
          OllamaProvider.estimate_model_size
              (OllamaProvider.get_default_model (a :: l)) <
            OllamaProvider.estimate_model_size y)) := by
  refine ⟨rfl, rfl, rfl, ?_, rfl, ?_⟩
  · rw [get_default_model_cons]
    rfl
  · intro a l
    rw [get_default_model_cons]
    exact ⟨firstMinBy_mem _ a l, firstMinBy_le _ a l, firstMinBy_first _ a l⟩

/-- Concrete instantiation of `C4_ollama_size_ranking_and_default`: with
directory `["qwen2.5:14b", "llama3.2:1b"]` the selected default has
estimated size no larger than the 14B entry's. -/
theorem C4_ollama_size_ranking_and_default_witness :
    OllamaProvider.estimate_model_size
        (OllamaProvider.get_default_model ["qwen2.5:14b", "llama3.2:1b"]) ≤
      OllamaProvider.estimate_model_size "qwen2.5:14b" :=
  (C4_ollama_size_ranking_and_default.2.2.2.2.2 "qwen2.5:14b"
    ["llama3.2:1b"]).2.1 "qwen2.5:14b" (by simp)

/-! ## Sorting helper lemmas for the cache claims -/

theorem mergeSort_idem {α : Type} {le : α → α → Bool}
    (htrans : ∀ a b c, le a b → le b c → le a c)
    (htotal : ∀ a b, le a b || le b a) (l : List α) :
    (l.mergeSort le).mergeSort le = l.mergeSort le :=
  List.mergeSort_of_sorted (List.sorted_mergeSort htrans htotal l)

theorem sortStrings_idem (l : List String) :
    sortStrings (sortStrings l) = sortStrings l := by
  apply mergeSort_idem
  · intro a b c h1 h2
    simp only [decide_eq_true_eq] at *
    exact le_trans h1 h2
  · intro a b
    rcases le_total a b with h | h <;> simp [h]

/-- Claim C5: for both adapters, two consecutive
`list_models(force_refresh=false)` calls with no intervening refresh
return identical sequences; a populated cache is returned (Ollama:
sorted — the identity on the sorted lists the adapter caches) without
querying the backend; and `force_refresh=true` always discards the
cache (behaving exactly like a cold call) and re-queries the
backend. -/
theorem C5_model_cache_idempotence :
    (∀ (cache : Option (List String)) (backend : OllamaProvider.TagsResult),
      (OllamaProvider.get_available_models
        (OllamaProvider.get_available_models cache backend false).cache
        backend false).result =
      (OllamaProvider.get_available_models cache backend false).result) ∧
    (∀ (cache : Option (List String)) (fetched : List String),
      (GeminiProvider.get_available_models
        (GeminiProvider.get_available_models cache fetched false).cache
        fetched false).result =
      (GeminiProvider.get_available_models cache fetched false).result) ∧
    (∀ (c : List String) (backend : OllamaProvider.TagsResult),
      (OllamaProvider.get_available_models (some c) backend false).queried = false ∧
      (OllamaProvider.get_available_models (some c) backend false).result =
        sortStrings c) ∧
    (∀ (c : List String) (backend : OllamaProvider.TagsResult),
      c = sortStrings c →
      (OllamaProvider.get_available_models (some c) backend false).result = c) ∧
    (∀ (c : List String) (fetched : List String),
      GeminiProvider.get_available_models (some c) fetched false =
        { result := c, cache := some c, queried := false }) ∧
    (∀ (cache : Option (List String)) (backend : OllamaProvider.TagsResult),
      OllamaProvider.get_available_models cache backend true =
        OllamaProvider.get_available_models none backend false ∧
      (OllamaProvider.get_available_models cache backend true).queried = true) ∧
    (∀ (cache : Option (List String)) (fetched : List String),
      GeminiProvider.get_available_models cache fetched true =
        GeminiProvider.get_available_models none fetched false ∧
      (GeminiProvider.get_available_models cache fetched true).queried = true) := by
  refine ⟨?_, ?_, ?_, ?_, ?_, ?_, ?_⟩
  · intro cache backend
    cases cache with
    | some c => rfl
    | none =>
      cases backend with
      | failure => rfl
      | success entries =>
        exact sortStrings_idem (entries.filterMap id)
  · intro cache fetched
    cases cache with
    | some c => rfl
    | none =>
      cases fetched with
      | nil => rfl
      | cons f fs => rfl
  · intro c backend
    exact ⟨rfl, rfl⟩
  · intro c backend hc
    exact hc.symm
  · intro c fetched
    rfl
  · intro cache backend
    refine ⟨rfl, ?_⟩
    cases backend <;> rfl
  · intro cache fetched
    refine ⟨rfl, ?_⟩
    cases fetched <;> rfl

/-- Concrete instantiation of `C5_model_cache_idempotence`: the empty
cached list is its own sorted image, so a cache-hit call returns it
unchanged. -/
theorem C5_model_cache_idempotence_witness :
    (OllamaProvider.get_available_models (some [])
        OllamaProvider.TagsResult.failure false).result = [] :=
  C5_model_cache_idempotence.2.2.2.1 [] OllamaProvider.TagsResult.failure
    (by simp [sortStrings])

theorem findSubMatch_eq_none (m : String) (l : List String)
    (h : ∀ o ∈ l, strIn o m = false ∧ strIn m o = false) :
    GeminiProvider.findSubMatch m l = none := by
  induction l with
  | nil => rfl
  | cons o t ih =>
    have ho := h o (List.mem_cons_self _ _)
    simp only [GeminiProvider.findSubMatch, ho.1, ho.2, Bool.or_self, if_neg]
    exact ih (fun x hx => h x (List.mem_cons_of_mem _ hx))

/-- Claim C6: the Gemini adapter re-ranks live entries by a price key
derived from the fixed reference list — exact match takes the
reference index, otherwise a substring match (either direction) takes
the matched identifier's index, otherwise `9999` (sorting last); the
output is a permutation of the input sorted by this key, and the live
entries `["gemini-pro", "gemini-2.0-flash"]` re-rank to
`["gemini-2.0-flash", "gemini-pro"]`. -/
theorem C6_gemini_price_ranking :
    GeminiProvider.sort_models_by_price ["gemini-pro", "gemini-2.0-flash"] =
      ["gemini-2.0-flash", "gemini-pro"] ∧
    (∀ ms : List String,
      (GeminiProvider.sort_models_by_price ms).Perm ms ∧
      (GeminiProvider.sort_models_by_price ms).Pairwise
        (fun a b => GeminiProvider.get_price_order a ≤
          GeminiProvider.get_price_order b)) ∧
    GeminiProvider.get_price_order "gemini-pro" = 7 ∧
    GeminiProvider.get_price_order "gemini-2.0-flash" = 2 ∧
    GeminiProvider.get_price_order "gemini-2.0-flash-latest" = 2 ∧
    GeminiProvider.get_price_order "gpt-4" = 9999 ∧
    (∀ (m : String) (i : Nat), GeminiProvider.priceIndex m = some i →
      GeminiProvider.get_price_order m = i ∧ i < 9) ∧
    (∀ m : String, GeminiProvider.priceIndex m = none →
      (∀ o ∈ GeminiProvider.GEMINI_MODELS_BY_PRICE,
        strIn o m = false ∧ strIn m o = false) →
      GeminiProvider.get_price_order m = 9999) ∧
    (∀ k ∈ GeminiProvider.GEMINI_MODELS_BY_PRICE,
      GeminiProvider.get_price_order k < 9999) := by
  have htrans : ∀ a b c : String,
      decide (GeminiProvider.get_price_order a ≤ GeminiProvider.get_price_order b) →
      decide (GeminiProvider.get_price_order b ≤ GeminiProvider.get_price_order c) →
      decide (GeminiProvider.get_price_order a ≤ GeminiProvider.get_price_order c) := by
    intro a b c h1 h2
    simp only [decide_eq_true_eq] at *
    omega
  have htotal : ∀ a b : String,
      decide (GeminiProvider.get_price_order a ≤ GeminiProvider.get_price_order b) ||
      decide (GeminiProvider.get_price_order b ≤ GeminiProvider.get_price_order a) := by
    intro a b
    rcases Nat.le_total (GeminiProvider.get_price_order a)
      (GeminiProvider.get_price_order b) with h | h <;> simp [h]
  refine ⟨?_, ?_, rfl, rfl, rfl, rfl, ?_, ?_, ?_⟩
  · simp [GeminiProvider.sort_models_by_price, List.mergeSort, List.splitInTwo,
      List.splitAt, List.splitAt.go, List.merge]
    decide
  · intro ms
    refine ⟨List.mergeSort_perm ms _, ?_⟩
    exact (List.sorted_mergeSort htrans htotal ms).imp
      (fun h => by simpa using h)
  · intro m i h
    have hlt := (List.findIdx?_eq_some_iff_findIdx_eq.mp h).1
    refine ⟨?_, hlt⟩
    simp [GeminiProvider.get_price_order, GeminiProvider.priceIndex] at h ⊢
    simp [h]
  · intro m hpi hno
    simp [GeminiProvider.get_price_order, hpi, findSubMatch_eq_none m _ hno]
  · intro k hk
    simp only [GeminiProvider.GEMINI_MODELS_BY_PRICE, List.mem_cons,
      List.mem_singleton] at hk
    rcases hk with rfl | rfl | rfl | rfl | rfl | rfl | rfl | rfl | rfl | hk
    · decide
    · decide
    · decide
    · decide
    · decide
    · decide
    · decide
    · decide
    · decide
    · simp at hk

/-- Concrete instantiation of `C6_gemini_price_ranking`: the unknown
identifier `"claude-3"` matches no reference entry and gets key
`9999`, and the known entry `"gemini-1.5-pro"` sorts strictly before
unknowns. -/
theorem C6_gemini_price_ranking_witness :
    GeminiProvider.get_price_order "claude-3" = 9999 ∧
    GeminiProvider.get_price_order "gemini-1.5-pro" < 9999 := by
  constructor
  · exact C6_gemini_price_ranking.2.2.2.2.2.2.2.1 "claude-3" (by decide)
      (by decide)
  · exact C6_gemini_price_ranking.2.2.2.2.2.2.2.2 "gemini-1.5-pro" (by decide)

/-- Claim C7 (amended): on the Gemini adapter, a **non-empty** explicit
model that is absent from the current model listing makes both
synchronous generation and streaming generation fail with the
model-unavailable error before any backend generation call is issued.
(An empty-string explicit model is falsy in Python: `model or
self.get_default_model()` replaces it with the static default, which
is then validated instead.) -/
theorem C7_gemini_unavailable_model_fails_fast :
    ∀ (cache : Option (List String)) (fetched : List String)
      (messages : List ChatMessage) (m : String),
      m ≠ "" →
      (GeminiProvider.get_available_models cache fetched false).result.contains m
        = false →
      GeminiProvider.generate_response_with_messages cache fetched messages
          (some m) =
        .modelUnavailable m
          (GeminiProvider.get_available_models cache fetched false).result ∧
      GeminiProvider.stream_response_with_messages cache fetched messages
          (some m) =
        .modelUnavailable m
          (GeminiProvider.get_available_models cache fetched false).result := by
  intro cache fetched messages m hm h
  constructor
  · simp only [GeminiProvider.generate_response_with_messages, if_neg hm]
    rw [if_pos (by rw [h]; rfl)]
  · simp only [GeminiProvider.stream_response_with_messages, if_neg hm]
    rw [if_pos (by rw [h]; rfl)]

/-- Counterexample to claim C7 as stated: the explicit model `""` is
absent from the listing `["gemini-2.0-flash"]`, yet neither generation
nor streaming fails with the model-unavailable error — the empty
string is falsy, so the code substitutes the default model and issues
the backend call with it. -/
theorem C7_counterexample_empty_model_not_failing_fast :
    (["gemini-2.0-flash"] : List String).contains "" = false ∧
    GeminiProvider.generate_response_with_messages (some ["gemini-2.0-flash"]) []
        [⟨"user", "hi"⟩] (some "") =
      .issued "gemini-2.0-flash" [⟨"user", ["hi"]⟩] ∧
    GeminiProvider.stream_response_with_messages (some ["gemini-2.0-flash"]) []
        [⟨"user", "hi"⟩] (some "") =
      .issued "gemini-2.0-flash" [⟨"user", ["hi"]⟩] :=
  ⟨by decide, rfl, rfl⟩

/-- Concrete instantiation of `C7_gemini_unavailable_model_fails_fast`:
with a cached listing `["m1"]`, requesting `"gemini-pro"` fails fast on
both paths. -/
theorem C7_gemini_unavailable_model_fails_fast_witness :
    GeminiProvider.generate_response_with_messages (some ["m1"]) []
        [⟨"user", "hi"⟩] (some "gemini-pro") =
      .modelUnavailable "gemini-pro" ["m1"] ∧
    GeminiProvider.stream_response_with_messages (some ["m1"]) []
        [⟨"user", "hi"⟩] (some "gemini-pro") =
      .modelUnavailable "gemini-pro" ["m1"] :=
  C7_gemini_unavailable_model_fails_fast (some ["m1"]) [] [⟨"user", "hi"⟩]
    "gemini-pro" (by decide) (by decide)

/-- Claim C10: the Gemini adapter validates the effective model even
when none is supplied — the static default `"gemini-2.0-flash"` is
substituted and checked against the current listing, so whenever the
listing lacks it, generation and streaming with no explicit model fail
with the model-unavailable error instead of reaching the backend. -/
theorem C10_gemini_default_model_validated :
    GeminiProvider.default_model = "gemini-2.0-flash" ∧
    ∀ (cache : Option (List String)) (fetched : List String)
      (messages : List ChatMessage),
      (GeminiProvider.get_available_models cache fetched false).result.contains
          "gemini-2.0-flash" = false →
      GeminiProvider.generate_response_with_messages cache fetched messages none =
        .modelUnavailable "gemini-2.0-flash"
          (GeminiProvider.get_available_models cache fetched false).result ∧
      GeminiProvider.stream_response_with_messages cache fetched messages none =
        .modelUnavailable "gemini-2.0-flash"
          (GeminiProvider.get_available_models cache fetched false).result := by
  refine ⟨rfl, ?_⟩
  intro cache fetched messages h
  have hd : GeminiProvider.default_model = "gemini-2.0-flash" := rfl
  constructor
  · simp only [GeminiProvider.generate_response_with_messages]
    rw [if_pos (by rw [hd, h]; rfl)]
    rw [hd]
  · simp only [GeminiProvider.stream_response_with_messages]
    rw [if_pos (by rw [hd, h]; rfl)]
    rw [hd]

/-- Concrete instantiation of `C10_gemini_default_model_validated`: a
cached listing `["m1"]` lacks the default model, so a model-less
request fails fast on both paths. -/
theorem C10_gemini_default_model_validated_witness :
    GeminiProvider.generate_response_with_messages (some ["m1"]) []
        [⟨"user", "hi"⟩] none =
      .modelUnavailable "gemini-2.0-flash" ["m1"] ∧
    GeminiProvider.stream_response_with_messages (some ["m1"]) []
        [⟨"user", "hi"⟩] none =
      .modelUnavailable "gemini-2.0-flash" ["m1"] :=
  C10_gemini_default_model_validated.2 (some ["m1"]) [] [⟨"user", "hi"⟩]
    (by decide)

/-- Claim C8: provider resolution lower-cases the requested name (so
names equal up to case resolve identically, e.g. `"Ollama"` and
`"ollama"`), substitutes the configured default name when none is
given, succeeds exactly on registered adapters, and fails with the
provider-not-found error when the lower-cased name has no registered
adapter. -/
theorem C8_provider_resolution :
    (∀ (α : Type) (providers : List (String × α)) (d s₁ s₂ : String),
      pyLower s₁ = pyLower s₂ →
      get_provider providers d (some s₁) = get_provider providers d (some s₂)) ∧
    (∀ (α : Type) (providers : List (String × α)) (d : String),
      get_provider providers d (some "Ollama") =
        get_provider providers d (some "ollama")) ∧
    (∀ (α : Type) (providers : List (String × α)) (d : String),
      get_provider providers d none = get_provider providers d (some d)) ∧
    (∀ (α : Type) (providers : List (String × α)) (d : String)
      (nm : Option String),
      providers.lookup (pyLower (nm.getD d)) = none →
      ∃ e, get_provider providers d nm = .error e) ∧
    (∀ (α : Type) (providers : List (String × α)) (d : String)
      (nm : Option String) (p : α),
      providers.lookup (pyLower (nm.getD d)) = some p →
      get_provider providers d nm = .ok p) := by
  have hml : ∀ (α : Type) (providers : List (String × α)) (d : String)
      (nm : Option String),
      get_provider providers d nm =
        match providers.lookup (pyLower (nm.getD d)) with
        | some p => .ok p
        | none => .error ("Provider '" ++ pyLower (nm.getD d) ++
            "' is not available") := by
    intro α providers d nm
    cases nm <;> rfl
  refine ⟨?_, ?_, ?_, ?_, ?_⟩
  · intro α providers d s₁ s₂ h
    rw [hml, hml]
    simp only [Option.getD_some, h]
  · intro α providers d
    rw [hml, hml]
    simp only [Option.getD_some]
    norm_num [show pyLower "Ollama" = pyLower "ollama" from by decide]
  · intro α providers d
    rw [hml, hml]
    rfl
  · intro α providers d nm h
    rw [hml, h]
    exact ⟨_, rfl⟩
  · intro α providers d nm p h
    rw [hml, h]

/-- Concrete instantiation of `C8_provider_resolution`: with registry
`[("ollama", 0)]`, `"Ollama"` resolves to the registered adapter and
`"gemini"` fails with the provider-not-found error. -/
theorem C8_provider_resolution_witness :
    get_provider [("ollama", 0)] "ollama" (some "Ollama") = .ok 0 ∧
    (∃ e, get_provider [("ollama", 0)] "ollama" (some "gemini") = .error e) := by
  constructor
  · exact C8_provider_resolution.2.2.2.2 Nat [("ollama", 0)] "ollama"
      (some "Ollama") 0 (by decide)
  · exact C8_provider_resolution.2.2.2.1 Nat [("ollama", 0)] "ollama"
      (some "gemini") (by decide)
